import Mathlib

/-!
Shallow embedding of `src/pyramid/scripts/pshell.py` (the `pshell` command of
the Pyramid web framework).

Modelling conventions:
* Python objects bound in the interactive environment are modelled by `Obj`:
  `id` models reference identity (`is`), `doc` models `__doc__`
  (`none` = no docstring / `None`), `str` models `str(obj)`.
* Python dicts (which preserve insertion order) are association lists
  `List (String × _)`; `dlookup` / `dinsert` / `derase` model item access,
  item assignment (update in place, else append) and `del`.
* Shell factories are identified by a `Nat` tag; their runtime behaviour is an
  oracle parameter `shellFns` of `run`.
* Exceptions are modelled with `Except PyErr`; external collaborators
  (dotted-name resolver, setup-hook call, filesystem, `exec`) are oracle
  function parameters.
-/

/-- A Python object as far as pshell observes it: reference identity,
docstring, and `str()` rendering. -/
structure Obj where
  id : Nat
  doc : Option String
  str : String
deriving Repr, DecidableEq

/-- Exceptions that the modelled code can raise or propagate. -/
inductive PyErr where
  | importError (msg : String)
  | typeError (msg : String)
  | exc (tag : Nat)
deriving Repr, DecidableEq

abbrev Env := List (String × Obj)

/-- A value stored in the `env_help` dict: either a description string or a
raw object (rendered later via `str`). -/
inductive HelpVal where
  | descr (s : String)
  | obj (o : Obj)
deriving Repr, DecidableEq

abbrev HelpMap := List (String × HelpVal)

/-! ### Python-dict primitives on association lists -/

/-- Dict lookup: first entry with the given key. -/
def dlookup : List (String × α) → String → Option α
  | [], _ => none
  | p :: t, k => if p.1 == k then some p.2 else dlookup t k

/-- Dict item assignment `d[k] = v`: update the existing entry in place,
otherwise append at the end (Python insertion order). -/
def dinsert : List (String × α) → String → α → List (String × α)
  | [], k, v => [(k, v)]
  | p :: t, k, v => if p.1 == k then (p.1, v) :: t else p :: dinsert t k v

/-- Dict deletion `del d[k]` (no-op when the key is absent). -/
def derase : List (String × α) → String → List (String × α)
  | [], _ => []
  | p :: t, k => if p.1 == k then derase t k else p :: derase t k

/-- The keys of a dict, in insertion order. -/
def dkeys (l : List (String × α)) : List String :=
  l.map Prod.fst

/-- Model of `d.update(e)`: insert every entry of `e` into `d`. -/
def dupdateMany (d : List (String × α)) (e : List (String × α)) : List (String × α) :=
  e.foldl (fun acc p => dinsert acc p.1 p.2) d

/-! ### Basic dict lemmas -/

theorem dlookup_dinsert_self (l : List (String × α)) (k : String) (v : α) :
    dlookup (dinsert l k v) k = some v := by
  induction l with
  | nil => simp [dinsert, dlookup]
  | cons p t ih =>
    by_cases h : p.1 = k
    · simp [dinsert, dlookup, h]
    · simp [dinsert, dlookup, h, ih]

theorem dlookup_dinsert_ne (l : List (String × α)) (k k2 : String) (v : α)
    (h : k2 ≠ k) : dlookup (dinsert l k v) k2 = dlookup l k2 := by
  have hk : (k == k2) = false := beq_eq_false_iff_ne.mpr (Ne.symm h)
  induction l with
  | nil => simp [dinsert, dlookup, hk]
  | cons p t ih =>
    by_cases hp : p.1 = k
    · simp [dinsert, dlookup, hp, hk]
    · by_cases hp2 : p.1 = k2
      · simp [dinsert, dlookup, hp, hp2, h]
      · simp [dinsert, dlookup, hp, hp2, ih]

theorem dlookup_derase_self (l : List (String × α)) (k : String) :
    dlookup (derase l k) k = none := by
  induction l with
  | nil => rfl
  | cons p t ih =>
    by_cases h : p.1 = k
    · simpa [derase, h] using ih
    · simpa [derase, dlookup, h] using ih

theorem dlookup_derase_ne (l : List (String × α)) (k k2 : String) (h : k2 ≠ k) :
    dlookup (derase l k) k2 = dlookup l k2 := by
  induction l with
  | nil => rfl
  | cons p t ih =>
    by_cases hp : p.1 = k
    · have hp2 : ¬p.1 = k2 := fun hh => h (hh ▸ hp)
      simpa [derase, dlookup, hp, hp2, Ne.symm h] using ih
    · by_cases hp2 : p.1 = k2
      · simp [derase, dlookup, hp, hp2, h]
      · simpa [derase, dlookup, hp, hp2] using ih

theorem not_mem_dkeys_derase (l : List (String × α)) (k : String) :
    k ∉ dkeys (derase l k) := by
  induction l with
  | nil => simp [derase, dkeys]
  | cons p t ih =>
    by_cases h : p.1 = k
    · simpa [derase, h] using ih
    · simp only [derase, h, beq_iff_eq, if_false, dkeys, List.map_cons, List.mem_cons, not_or]
      exact ⟨fun hh => h hh.symm, ih⟩

theorem dlookup_eq_none_of_not_mem_dkeys (l : List (String × α)) (k : String)
    (h : k ∉ dkeys l) : dlookup l k = none := by
  induction l with
  | nil => rfl
  | cons p t ih =>
    simp only [dkeys, List.map_cons, List.mem_cons, not_or] at h
    simp only [dlookup, beq_iff_eq]
    rw [if_neg (fun hh => h.1 hh.symm)]
    exact ih h.2

theorem dlookup_eq_of_mem_nodup (l : List (String × α)) (p : String × α)
    (hnd : (dkeys l).Nodup) (hmem : p ∈ l) : dlookup l p.1 = some p.2 := by
  induction l with
  | nil => cases hmem
  | cons q t ih =>
    simp only [dkeys, List.map_cons, List.nodup_cons] at hnd
    rcases List.mem_cons.mp hmem with h | h
    · simp [dlookup, h]
    · have hq : q.1 ≠ p.1 := by
        intro he
        exact hnd.1 (he ▸ (List.mem_map.mpr ⟨p, h, rfl⟩))
      simp only [dlookup, beq_iff_eq, hq, if_false]
      exact ih hnd.2 h

theorem mem_dkeys_of_mem (l : List (String × α)) (p : String × α) (h : p ∈ l) :
    p.1 ∈ dkeys l :=
  List.mem_map.mpr ⟨p, h, rfl⟩

/-! ### Stable sorting (model of Python `sorted` with a key function) -/

/-- Stable insertion: `x` goes before the first element `y` with `le x y`,
so an element inserted from the left stays before later equal elements. -/
def insertSorted (le : α → α → Bool) (x : α) : List α → List α
  | [] => [x]
  | y :: ys => if le x y then x :: y :: ys else y :: insertSorted le x ys

/-- Stable insertion sort; models Python `sorted` (which is stable). -/
def isortBy (le : α → α → Bool) : List α → List α
  | [] => []
  | x :: xs => insertSorted le x (isortBy le xs)

/-- The leftmost minimum of a list: what `sorted(l, key=...)[0]` returns. -/
def leftmostMinBy (le : α → α → Bool) : List α → Option α
  | [] => none
  | x :: xs =>
    match leftmostMinBy le xs with
    | none => some x
    | some y => some (if le x y then x else y)

theorem insertSorted_ne_nil (le : α → α → Bool) (x : α) (l : List α) :
    insertSorted le x l ≠ [] := by
  cases l with
  | nil => simp [insertSorted]
  | cons y ys =>
    simp only [insertSorted]
    by_cases h : le x y <;> simp [h]

theorem isortBy_eq_nil_iff (le : α → α → Bool) (l : List α) :
    isortBy le l = [] ↔ l = [] := by
  cases l with
  | nil => simp [isortBy]
  | cons x xs => simp [isortBy, insertSorted_ne_nil]

theorem mem_insertSorted (le : α → α → Bool) (x a : α) (l : List α) :
    a ∈ insertSorted le x l ↔ a = x ∨ a ∈ l := by
  induction l with
  | nil => simp [insertSorted]
  | cons y ys ih =>
    simp only [insertSorted]
    by_cases h : le x y
    · simp [h]
    · rw [if_neg h]
      simp only [List.mem_cons, ih]
      tauto

theorem mem_isortBy (le : α → α → Bool) (a : α) (l : List α) :
    a ∈ isortBy le l ↔ a ∈ l := by
  induction l with
  | nil => simp [isortBy]
  | cons x xs ih => simp [isortBy, mem_insertSorted, ih]

theorem head?_isortBy (le : α → α → Bool) (l : List α) :
    (isortBy le l).head? = leftmostMinBy le l := by
  induction l with
  | nil => rfl
  | cons x xs ih =>
    simp only [isortBy, leftmostMinBy]
    cases h : isortBy le xs with
    | nil =>
      rw [h] at ih
      simp only [List.head?] at ih
      rw [← ih]
      simp [insertSorted]
    | cons y ys =>
      rw [h] at ih
      simp only [List.head?] at ih
      rw [← ih]
      simp only [insertSorted]
      by_cases hle : le x y <;> simp [hle]

theorem leftmostMinBy_mem (le : α → α → Bool) (l : List α) (x : α)
    (h : leftmostMinBy le l = some x) : x ∈ l := by
  induction l generalizing x with
  | nil => cases h
  | cons a t ih =>
    simp only [leftmostMinBy] at h
    cases ht : leftmostMinBy le t with
    | none =>
      rw [ht] at h
      cases h
      simp
    | some y =>
      rw [ht] at h
      have hy := ih y ht
      by_cases hle : le a y
      · simp [hle] at h
        simp [← h]
      · simp [hle] at h
        simp [← h, hy]

theorem leftmostMinBy_congr (le₁ le₂ : α → α → Bool)
    (h : ∀ a b, le₁ a b = le₂ a b) (l : List α) :
    leftmostMinBy le₁ l = leftmostMinBy le₂ l := by
  have : le₁ = le₂ := funext fun a => funext fun b => h a b
  rw [this]

/-! ### `list.index` with `try/except ValueError` (model of lines 251-257) -/

/-- Model of Python `l.index(x)` wrapped in `try/except`: the index of the
first match, or `none` when absent. -/
def listIdx (p : α → Bool) : List α → Option Nat
  | [] => none
  | x :: xs => if p x then some 0 else (listIdx p xs).map (· + 1)

theorem listIdx_lt_length (p : α → Bool) (l : List α) (i : Nat)
    (h : listIdx p l = some i) : i < l.length := by
  induction l generalizing i with
  | nil => cases h
  | cons x xs ih =>
    simp only [listIdx] at h
    by_cases hp : p x
    · rw [if_pos hp] at h
      cases h
      simp
    · rw [if_neg hp] at h
      cases hx : listIdx p xs with
      | none => rw [hx] at h; cases h
      | some j =>
        rw [hx] at h
        simp only [Option.map] at h
        cases h
        have := ih j hx
        exact Nat.succ_lt_succ this

/-! ### Lexicographic string order (model of Python string comparison) -/

/-- Lexicographic comparison of characters lists by code point. -/
def strLeAux : List Char → List Char → Bool
  | [], _ => true
  | _ :: _, [] => false
  | a :: as, b :: bs => if a = b then strLeAux as bs else decide (a < b)

/-- Comparison `a <= b` on strings as Python compares them (by code points). -/
def strLe (a b : String) : Bool :=
  strLeAux a.data b.data

/-! ### Executable models of the Python string operations used -/

/-- Model of `str.lower()` (ASCII case folding, as the shell names use). -/
def pyLower (s : String) : String :=
  String.mk (s.data.map Char.toLower)

/-- Model of `str.replace("\n", " ")`. -/
def pyReplaceNl (s : String) : String :=
  String.mk (s.data.map (fun c => if c = Char.ofNat 10 then Char.ofNat 32 else c))

/-- Drop leading whitespace characters. -/
def dropWs : List Char → List Char
  | [] => []
  | c :: cs => if c.isWhitespace then dropWs cs else c :: cs

/-- Model of `str.strip()`. -/
def pyStrip (s : String) : String :=
  String.mk ((dropWs (dropWs s.data).reverse).reverse)

/-! ### Shell resolution (`PShellCommand.make_shell`, lines 238-279) -/

/-- Lines 245-248: use the configured preference list; when it is empty,
synthesize one of all discovered names except `"python"`, in discovery
order. -/
def synthPreferred (shells : List (String × Nat)) (preferred_shells : List String) : List String :=
  if preferred_shells.isEmpty then (dkeys shells).filter (fun k => !(k == "python"))
  else preferred_shells

/-- The `order` key function of lines 251-257: index in the preference list
minus `max_weight` when present (lower sorts first), `1` when absent. -/
def shellOrderKey (preferred : List String) (max_weight : Nat) (x : String × Nat) : Int :=
  match listIdx (fun q => q == pyLower x.1) preferred with
  | some i => (i : Int) - (max_weight : Int)
  | none => 1

/-- The rank the specification describes: the position of the (lowercased)
shell name in the preference list, with absent names ranked at the list
length (tied for last). -/
def specRank (preferred : List String) (x : String × Nat) : Nat :=
  match listIdx (fun q => q == pyLower x.1) preferred with
  | some i => i
  | none => preferred.length

/-- Model of `PShellCommand.make_shell`: shells is the discovered name-to-factory dict
in discovery order; factories are `Nat` tags. `.error` models the
`ValueError` raised for an unknown explicit shell name. -/
def make_shell (shells : List (String × Nat)) (python_shell : String)
    (preferred_shells : List String) (default_runner : Nat) : Except String Nat :=
  let user_shell := pyLower python_shell
  if user_shell == "" then
    let preferred := synthPreferred shells preferred_shells
    let max_weight := preferred.length
    let sorted_shells := isortBy
      (fun a b => decide (shellOrderKey preferred max_weight a ≤ shellOrderKey preferred max_weight b))
      shells
    match sorted_shells.head? with
    | some x => .ok x.2
    | none => .ok default_runner
  else
    match dlookup shells user_shell with
    | some runner => .ok runner
    | none => .error ("could not find a shell named \"" ++ user_shell ++ "\"")

/-! ### Command state (the class-level fields of `PShellCommand`) -/

/-- The mutable fields of `PShellCommand` read by `setup_env` and
`make_shell`; `setup` is the dotted path (or `None`) before resolution. -/
structure St where
  loaded_objects : Env
  object_help : List (String × String)
  preferred_shells : List String
  setup : Option String
deriving Repr, DecidableEq

/-! ### Environment and help construction (`setup_env`, lines 156-217) -/

/-- Lines 159-167: `env_help = dict(env)` plus the five seeded descriptions
(item assignment adds the key when absent). -/
def seededHelp (env : Env) : HelpMap :=
  let h := env.map (fun p => (p.1, HelpVal.obj p.2))
  let h := dinsert h "app" (.descr "The WSGI application.")
  let h := dinsert h "root" (.descr "Root of the default resource tree.")
  let h := dinsert h "registry" (.descr "Active Pyramid registry.")
  let h := dinsert h "request" (.descr "Active request object.")
  dinsert h "root_factory" (.descr "Default root factory used to create `root`.")

/-- Lines 173-175: delete from `env_help` every key of `loaded_objects`. -/
def overlayHelp (h : HelpMap) (loaded : Env) : HelpMap :=
  loaded.foldl (fun acc p => derase acc p.1) h

/-- Lines 178-179: a `--setup` command line option overrides the configured
setup value. -/
def effectiveSetup (args_setup : Option String) (st : St) : Option String :=
  match args_setup with
  | some s => if s == "" then st.setup else some s
  | none => st.setup

/-- Line 191: `k not in orig_env or v is not orig_env[k]`. -/
def changedSince (orig : Env) (p : String × Obj) : Bool :=
  match dlookup orig p.1 with
  | none => true
  | some v0 => p.2.id != v0.id

/-- Lines 192-195: the docstring with newlines replaced by spaces when the
object has a non-empty docstring, otherwise the object itself. -/
def docLine (v : Obj) : HelpVal :=
  match v.doc with
  | some d => if d == "" then .obj v else .descr (pyReplaceNl d)
  | none => .obj v

/-- Lines 190-195: for every entry of the post-hook environment that is new
or rebound (by identity) relative to `orig`, replace its help entry. -/
def applyHookDiff (envPost orig : Env) (h : HelpMap) : HelpMap :=
  envPost.foldl
    (fun acc p => if changedSince orig p then dinsert acc p.1 (docLine p.2) else acc)
    h

/-- Rendering `str()` of a help value as interpolated by `'%-12s %s'`. -/
def strOfHelp : HelpVal → String
  | .descr s => s
  | .obj o => o.str

/-- Format `'%-12s'`: left-justify in a field of width 12 (no truncation). -/
def pad12 (s : String) : String :=
  if s.length < 12 then s ++ String.mk (List.replicate (12 - s.length) ' ') else s

/-- One section body: keys in sorted order, each rendered as
`'\n  %-12s %s'`. -/
def helpLines (entries : List (String × α)) (f : α → String) : String :=
  (isortBy strLe (dkeys entries)).foldl
    (fun acc var =>
      acc ++ "\n  " ++ pad12 var ++ " " ++
        (match dlookup entries var with
         | some x => f x
         | none => ""))
    ""

/-- Lines 199-208 and 216: the two help sections followed by `.strip()`. -/
def renderHelp (h : HelpMap) (object_help : List (String × String)) : String :=
  let s1 := if h.isEmpty then "" else "Environment:" ++ helpLines h strOfHelp
  let s2 :=
    if object_help.isEmpty then s1
    else s1 ++ "\n\nCustom Variables:" ++ helpLines object_help (fun s => s)
  pyStrip s2

/-- Lines 210-214: when `PYTHONSTARTUP` is set (non-empty) and names an
existing file, execute it against the environment and strip
`__builtins__`; otherwise leave the environment untouched. `fs` maps a
path to its contents when the file exists; `execFn` is the effect of
`exec` on the environment. -/
def applyPystartup (fs : String → Option String) (execFn : String → Env → Env)
    (pystartup : Option String) (env : Env) : Env :=
  match pystartup with
  | none => env
  | some p =>
    if p == "" then env
    else
      match fs p with
      | none => env
      | some contents => derase (execFn contents env) "__builtins__"

/-- Lines 181-183: resolve the setup value through the dotted-name resolver
when it is set; a falsy (absent or empty) value is left alone. -/
def resolveSetup (res : String → Except PyErr Obj) (v : Option String) :
    Except PyErr (Option Obj) :=
  match v with
  | none => .ok none
  | some s =>
    if s == "" then .ok none
    else
      match res s with
      | .ok o => .ok (some o)
      | .error e => .error e

/-- Lines 187-188: `make_contextmanager(self.setup)` entered with the
environment: calling the hook (which may mutate the environment or raise),
or doing nothing when no hook is set. -/
def runHook (callOf : Obj → Env → Except PyErr Env) (h : Option Obj) (env : Env) :
    Except PyErr Env :=
  match h with
  | none => .ok env
  | some o => callOf o env

/-- What `setup_env` has produced when its body reaches `yield`: the final
environment, the help-entry dict, and the rendered help text. -/
structure SetupResult where
  env : Env
  env_help : HelpMap
  help : String
deriving Repr, DecidableEq

/-- Model of `PShellCommand.setup_env` (lines 156-217) up to its `yield`: builds the
seeded help, overlays custom objects, resolves and enters the setup hook,
diffs the environment, renders the help text, and executes the startup
file. Errors model exceptions escaping the context manager before the
shell runs. -/
def setup_env (res : String → Except PyErr Obj) (callOf : Obj → Env → Except PyErr Env)
    (fs : String → Option String) (execFn : String → Env → Env)
    (st : St) (args_setup pystartup : Option String) (env : Env) :
    Except PyErr SetupResult :=
  let env_help := overlayHelp (seededHelp env) st.loaded_objects
  let env1 := dupdateMany env st.loaded_objects
  match resolveSetup res (effectiveSetup args_setup st) with
  | .error e => .error e
  | .ok hookObj =>
    match runHook callOf hookObj env1 with
    | .error e => .error e
    | .ok envPost =>
      let env_help := applyHookDiff envPost env1 env_help
      let help := renderHelp env_help st.object_help
      .ok { env := applyPystartup fs execFn pystartup envPost
            env_help := env_help
            help := help }

/-! ### The run method from bootstrap on (`PShellCommand.run`, lines 137-154) -/

instance [DecidableEq ε] [DecidableEq α] : DecidableEq (Except ε α) := fun x y =>
  match x, y with
  | .ok a, .ok b =>
    if h : a = b then isTrue (by rw [h]) else isFalse (by intro hh; cases hh; exact h rfl)
  | .error a, .error b =>
    if h : a = b then isTrue (by rw [h]) else isFalse (by intro hh; cases hh; exact h rfl)
  | .ok _, .error _ => isFalse (by intro hh; cases hh)
  | .error _, .ok _ => isFalse (by intro hh; cases hh)

/-- Observable outcome of a run: the value returned or exception propagated
by `run`, how many times the bootstrap closer was called, and how many
times a shell factory was invoked. -/
structure RunTrace where
  result : Except PyErr (Option Nat)
  closerCalls : Nat
  shellCalls : Nat
deriving Repr, DecidableEq

/-- Model of `PShellCommand.run` after `self.env = self.bootstrap(...)` and
`self.closer = self.env.pop('closer')` (`env` here is already without the
closer). The `try`/`finally` of lines 142-154 runs the closer exactly once
around every path: `make_shell` raising `ValueError` is caught and turned
into return code 1; exceptions from `setup_env` or from the shell itself
propagate. `shellFns` gives each factory tag its runtime behaviour. -/
def run (res : String → Except PyErr Obj) (callOf : Obj → Env → Except PyErr Env)
    (fs : String → Option String) (execFn : String → Env → Env)
    (shellFns : Nat → Env → String → Except PyErr Unit)
    (shells : List (String × Nat)) (default_runner : Nat)
    (args_shell : String) (args_setup pystartup : Option String)
    (st : St) (env : Env) : RunTrace :=
  let body : Except PyErr (Option Nat) × Nat :=
    match make_shell shells args_shell st.preferred_shells default_runner with
    | .error _ => (.ok (some 1), 0)
    | .ok sid =>
      match setup_env res callOf fs execFn st args_setup pystartup env with
      | .error e => (.error e, 0)
      | .ok r =>
        match shellFns sid r.env r.help with
        | .error e => (.error e, 1)
        | .ok _ => (.ok none, 1)
  { result := body.1
    closerCalls := 0 + 1
    shellCalls := body.2 }

/-! ### Config-section loading (`pshell_file_config`, lines 106-118) -/

/-- Whitespace word-splitting of a character list, dropping empty pieces. -/
def wordsAux : List Char → List Char → List String
  | [], acc => if acc.isEmpty then [] else [String.mk acc.reverse]
  | c :: cs, acc =>
    if c.isWhitespace then
      if acc.isEmpty then wordsAux cs [] else String.mk acc.reverse :: wordsAux cs []
    else wordsAux cs (c :: acc)

/-- Model of `pyramid.settings.aslist` with flattening: split the value on any
whitespace, dropping empty pieces (Python `str.split()`). -/
def aslist (s : String) : List String :=
  wordsAux s.data []

/-- One iteration of the settings loop (lines 111-118). -/
def applySetting (res : String → Except PyErr Obj) (st : St) (kv : String × String) :
    Except PyErr St :=
  if kv.1 == "setup" then .ok { st with setup := some kv.2 }
  else if kv.1 == "default_shell" then
    .ok { st with preferred_shells := (aslist kv.2).map pyLower }
  else
    match res kv.2 with
    | .error e => .error e
    | .ok o =>
      .ok { st with
              loaded_objects := dinsert st.loaded_objects kv.1 o
              object_help := dinsert st.object_help kv.1 kv.2 }

/-- The settings loop over the `[pshell]` items, in mapping order. -/
def applySettings (res : String → Except PyErr Obj) :
    St → List (String × String) → Except PyErr St
  | st, [] => .ok st
  | st, kv :: rest =>
    match applySetting res st kv with
    | .error e => .error e
    | .ok st2 => applySettings res st2 rest

/-- Model of `PShellCommand.pshell_file_config`: reset `loaded_objects`,
`object_help` and `setup`, then fold the settings; `preferred_shells` is
only written when a `default_shell` key occurs. -/
def pshell_file_config (res : String → Except PyErr Obj) (st : St)
    (settings : List (String × String)) : Except PyErr St :=
  applySettings res
    { st with loaded_objects := [], object_help := [], setup := none }
    settings

/-! ### Derived lemmas about the environment-builder steps -/

theorem mem_dkeys_derase_subset (l : List (String × α)) (k k2 : String)
    (h : k2 ∈ dkeys (derase l k)) : k2 ∈ dkeys l := by
  induction l with
  | nil => cases h
  | cons p t ih =>
    by_cases hp : p.1 = k
    · rw [show derase (p :: t) k = derase t k from by simp [derase, hp]] at h
      exact List.mem_cons_of_mem _ (ih h)
    · rw [show derase (p :: t) k = p :: derase t k from by simp [derase, hp]] at h
      simp only [dkeys, List.map_cons, List.mem_cons] at h ⊢
      rcases h with h | h
      · exact Or.inl h
      · exact Or.inr (ih h)

theorem overlayHelp_cons (q : String × Obj) (t : Env) (h : HelpMap) :
    overlayHelp h (q :: t) = overlayHelp (derase h q.1) t := rfl

theorem not_mem_dkeys_overlayHelp_of_not_mem (L : Env) :
    ∀ (h : HelpMap) (k : String), k ∉ dkeys h → k ∉ dkeys (overlayHelp h L) := by
  induction L with
  | nil => intro h k hk; exact hk
  | cons p t ih =>
    intro h k hk
    rw [overlayHelp_cons]
    exact ih (derase h p.1) k (fun hm => hk (mem_dkeys_derase_subset _ _ _ hm))

theorem not_mem_dkeys_overlayHelp (L : Env) :
    ∀ (h : HelpMap) (k : String), k ∈ dkeys L → k ∉ dkeys (overlayHelp h L) := by
  induction L with
  | nil => intro h k hk; cases hk
  | cons p t ih =>
    intro h k hk
    rw [overlayHelp_cons]
    by_cases hp : k = p.1
    · refine not_mem_dkeys_overlayHelp_of_not_mem t (derase h p.1) k ?_
      rw [hp]
      exact not_mem_dkeys_derase h p.1
    · have hk2 : k ∈ dkeys t := by
        simpa [dkeys, hp] using hk
      exact ih (derase h p.1) k hk2

theorem changedSince_self (env : Env) (p : String × Obj)
    (hnd : (dkeys env).Nodup) (hp : p ∈ env) : changedSince env p = false := by
  unfold changedSince
  rw [dlookup_eq_of_mem_nodup env p hnd hp]
  simp

theorem applyHookDiff_cons (q : String × Obj) (t orig : Env) (h : HelpMap) :
    applyHookDiff (q :: t) orig h
      = applyHookDiff t orig
          (if changedSince orig q then dinsert h q.1 (docLine q.2) else h) := rfl

theorem applyHookDiff_of_unchanged (envPost orig : Env) :
    ∀ h : HelpMap, (∀ p ∈ envPost, changedSince orig p = false) →
      applyHookDiff envPost orig h = h := by
  induction envPost with
  | nil => intro h _; rfl
  | cons q t ih =>
    intro h hc
    rw [applyHookDiff_cons, if_neg (by simp [hc q (List.mem_cons_self _ _)])]
    exact ih h (fun p hp => hc p (List.mem_cons_of_mem _ hp))

theorem applyHookDiff_self (env : Env) (h : HelpMap)
    (hnd : (dkeys env).Nodup) : applyHookDiff env env h = h :=
  applyHookDiff_of_unchanged env env h (fun p hp => changedSince_self env p hnd hp)

theorem dlookup_applyHookDiff_not_mem (orig : Env) (k : String) :
    ∀ (envPost : Env) (h : HelpMap), k ∉ dkeys envPost →
      dlookup (applyHookDiff envPost orig h) k = dlookup h k := by
  intro envPost
  induction envPost with
  | nil => intro h _; rfl
  | cons q t ih =>
    intro h hk
    simp only [dkeys, List.map_cons, List.mem_cons, not_or] at hk
    rw [applyHookDiff_cons]
    by_cases hc : changedSince orig q
    · rw [if_pos hc, ih (dinsert h q.1 (docLine q.2)) (by simpa [dkeys] using hk.2)]
      exact dlookup_dinsert_ne h q.1 k (docLine q.2) hk.1
    · rw [if_neg hc]
      exact ih h (by simpa [dkeys] using hk.2)

theorem dlookup_applyHookDiff (orig : Env) (k : String) (v : Obj) :
    ∀ (envPost : Env) (h : HelpMap), (dkeys envPost).Nodup → (k, v) ∈ envPost →
      dlookup (applyHookDiff envPost orig h) k =
        if changedSince orig (k, v) then some (docLine v) else dlookup h k := by
  intro envPost
  induction envPost with
  | nil => intro h _ hmem; cases hmem
  | cons q t ih =>
    intro h hnd hmem
    simp only [dkeys, List.map_cons, List.nodup_cons] at hnd
    rw [applyHookDiff_cons]
    rcases List.mem_cons.mp hmem with hq | hq
    · have hkt : k ∉ dkeys t := by
        have := hnd.1
        rw [← hq] at this
        simpa [dkeys] using this
      by_cases hc : changedSince orig (k, v)
      · rw [← hq, if_pos hc, if_pos hc,
            dlookup_applyHookDiff_not_mem orig k t _ hkt]
        exact dlookup_dinsert_self h k (docLine v)
      · rw [← hq, if_neg hc, if_neg hc,
            dlookup_applyHookDiff_not_mem orig k t _ hkt]
    · have hqk : q.1 ≠ k := by
        intro he
        exact hnd.1 (he ▸ mem_dkeys_of_mem t (k, v) hq)
      by_cases hc : changedSince orig q
      · rw [if_pos hc, ih (dinsert h q.1 (docLine q.2)) hnd.2 hq,
            dlookup_dinsert_ne h q.1 k (docLine q.2) (Ne.symm hqk)]
      · rw [if_neg hc, ih h hnd.2 hq]

theorem mem_dkeys_dinsert (l : List (String × α)) (k k2 : String) (v : α) :
    k2 ∈ dkeys (dinsert l k v) ↔ k2 = k ∨ k2 ∈ dkeys l := by
  induction l with
  | nil => simp [dinsert, dkeys]
  | cons p t ih =>
    by_cases hp : p.1 = k
    · rw [show dinsert (p :: t) k v = (p.1, v) :: t from by simp [dinsert, hp]]
      simp only [dkeys, List.map_cons, List.mem_cons]
      constructor
      · intro h
        exact Or.inr h
      · rintro (h | h)
        · exact Or.inl (h.trans hp.symm)
        · exact h
    · rw [show dinsert (p :: t) k v = p :: dinsert t k v from by simp [dinsert, hp]]
      simp only [dkeys, List.map_cons, List.mem_cons] at ih ⊢
      tauto

theorem dkeys_dinsert_nodup (l : List (String × α)) (k : String) (v : α)
    (h : (dkeys l).Nodup) : (dkeys (dinsert l k v)).Nodup := by
  induction l with
  | nil => simp [dinsert, dkeys]
  | cons p t ih =>
    simp only [dkeys, List.map_cons, List.nodup_cons] at h
    by_cases hp : p.1 = k
    · rw [show dinsert (p :: t) k v = (p.1, v) :: t from by simp [dinsert, hp]]
      simp only [dkeys, List.map_cons, List.nodup_cons]
      exact ⟨h.1, h.2⟩
    · rw [show dinsert (p :: t) k v = p :: dinsert t k v from by simp [dinsert, hp]]
      simp only [dkeys, List.map_cons, List.nodup_cons]
      refine ⟨?_, ih h.2⟩
      intro hm
      rcases (mem_dkeys_dinsert t k p.1 v).mp hm with he | he
      · exact hp he
      · exact h.1 he

theorem dkeys_dupdateMany_nodup (d e : List (String × α))
    (h : (dkeys d).Nodup) : (dkeys (dupdateMany d e)).Nodup := by
  induction e generalizing d with
  | nil => exact h
  | cons p t ih => exact ih (dinsert d p.1 p.2) (dkeys_dinsert_nodup d p.1 p.2 h)

/-! ### Equation lemmas for `setup_env` -/

theorem resolveSetup_some (res : String → Except PyErr Obj) (s : String) :
    resolveSetup res (some s)
      = if s == "" then .ok none
        else
          match res s with
          | .ok o => .ok (some o)
          | .error e => .error e := rfl

theorem runHook_some (callOf : Obj → Env → Except PyErr Env) (o : Obj) (env : Env) :
    runHook callOf (some o) env = callOf o env := rfl

theorem setup_env_no_hook (res : String → Except PyErr Obj)
    (callOf : Obj → Env → Except PyErr Env) (fs : String → Option String)
    (execFn : String → Env → Env) (st : St) (args_setup pystartup : Option String)
    (env : Env) (h : effectiveSetup args_setup st = none) :
    setup_env res callOf fs execFn st args_setup pystartup env
      = .ok { env := applyPystartup fs execFn pystartup (dupdateMany env st.loaded_objects)
              env_help := applyHookDiff (dupdateMany env st.loaded_objects)
                (dupdateMany env st.loaded_objects)
                (overlayHelp (seededHelp env) st.loaded_objects)
              help := renderHelp
                (applyHookDiff (dupdateMany env st.loaded_objects)
                  (dupdateMany env st.loaded_objects)
                  (overlayHelp (seededHelp env) st.loaded_objects))
                st.object_help } := by
  unfold setup_env
  rw [h]
  rfl

theorem setup_env_hook (res : String → Except PyErr Obj)
    (callOf : Obj → Env → Except PyErr Env) (fs : String → Option String)
    (execFn : String → Env → Env) (st : St) (args_setup pystartup : Option String)
    (env envPost : Env) (s : String) (o : Obj)
    (h1 : effectiveSetup args_setup st = some s) (h2 : s ≠ "")
    (h3 : res s = .ok o)
    (h4 : callOf o (dupdateMany env st.loaded_objects) = .ok envPost) :
    setup_env res callOf fs execFn st args_setup pystartup env
      = .ok { env := applyPystartup fs execFn pystartup envPost
              env_help := applyHookDiff envPost (dupdateMany env st.loaded_objects)
                (overlayHelp (seededHelp env) st.loaded_objects)
              help := renderHelp
                (applyHookDiff envPost (dupdateMany env st.loaded_objects)
                  (overlayHelp (seededHelp env) st.loaded_objects))
                st.object_help } := by
  have h2b : (s == "") = false := beq_eq_false_iff_ne.mpr h2
  unfold setup_env
  rw [h1, resolveSetup_some, h2b, h3]
  simp only [Bool.false_eq_true, if_false, runHook_some, h4]

theorem setup_env_startup_decomposition (res : String → Except PyErr Obj)
    (callOf : Obj → Env → Except PyErr Env) (fs : String → Option String)
    (execFn : String → Env → Env) (st : St) (args_setup : Option String)
    (env : Env) (p : Option String) :
    setup_env res callOf fs execFn st args_setup p env
      = (setup_env res callOf fs execFn st args_setup none env).map
          (fun r => { r with env := applyPystartup fs execFn p r.env }) := by
  simp only [setup_env]
  cases resolveSetup res (effectiveSetup args_setup st) with
  | error e => rfl
  | ok hookObj =>
    simp only []
    cases runHook callOf hookObj (dupdateMany env st.loaded_objects) with
    | error e => rfl
    | ok envPost => rfl

/-! ### Equation lemmas for `make_shell` -/

theorem leftmostMinBy_isSome (le : α → α → Bool) (l : List α) (h : l ≠ []) :
    ∃ x, leftmostMinBy le l = some x := by
  cases l with
  | nil => exact absurd rfl h
  | cons a t =>
    simp only [leftmostMinBy]
    cases leftmostMinBy le t with
    | none => exact ⟨a, rfl⟩
    | some y => exact ⟨if le a y then a else y, rfl⟩

theorem shellOrderKey_le_iff (preferred : List String) (a b : String × Nat) :
    (shellOrderKey preferred preferred.length a ≤ shellOrderKey preferred preferred.length b)
      ↔ (specRank preferred a ≤ specRank preferred b) := by
  unfold shellOrderKey specRank
  cases ha : listIdx (fun q => q == pyLower a.1) preferred with
  | none =>
    cases hb : listIdx (fun q => q == pyLower b.1) preferred with
    | none => simp
    | some j =>
      have hj := listIdx_lt_length _ _ _ hb
      simp only []
      omega
  | some i =>
    have hi := listIdx_lt_length _ _ _ ha
    cases hb : listIdx (fun q => q == pyLower b.1) preferred with
    | none =>
      simp only []
      omega
    | some j =>
      have hj := listIdx_lt_length _ _ _ hb
      simp only []
      omega

theorem make_shell_no_user (shells : List (String × Nat)) (P : List String) (d : Nat) :
    make_shell shells "" P d
      = match (isortBy
          (fun a b => decide (shellOrderKey (synthPreferred shells P) (synthPreferred shells P).length a
            ≤ shellOrderKey (synthPreferred shells P) (synthPreferred shells P).length b))
          shells).head? with
        | some x => .ok x.2
        | none => .ok d := rfl

theorem make_shell_user_found (shells : List (String × Nat)) (N : String)
    (P : List String) (d : Nat) (f : Nat)
    (hne : (pyLower N == "") = false) (hf : dlookup shells (pyLower N) = some f) :
    make_shell shells N P d = .ok f := by
  simp only [make_shell, hne, Bool.false_eq_true, if_false, hf]

theorem make_shell_user_missing (shells : List (String × Nat)) (N : String)
    (P : List String) (d : Nat)
    (hne : (pyLower N == "") = false) (hf : dlookup shells (pyLower N) = none) :
    make_shell shells N P d
      = .error ("could not find a shell named \"" ++ pyLower N ++ "\"") := by
  simp only [make_shell, hne, Bool.false_eq_true, if_false, hf]

/-! ### Shared concrete oracles for witnesses and counterexamples -/

/-- A dotted-name resolver for which every path fails with `ImportError`. -/
def failRes : String → Except PyErr Obj := fun s => .error (.importError s)

/-- A hook call that leaves the environment unchanged. -/
def idCall : Obj → Env → Except PyErr Env := fun _ e => .ok e

/-- A filesystem with no files. -/
def noFs : String → Option String := fun _ => none

/-- An `exec` with no effect on the environment. -/
def noExec : String → Env → Env := fun _ e => e

/-- A shell that runs and returns normally. -/
def okShell : Nat → Env → String → Except PyErr Unit := fun _ _ _ => .ok ()

/-- C1 counterexample: the discovered mapping registers the factory under
`"Python"`; the explicit user name `"Python"` is present in the mapping
(even verbatim, hence also case-insensitively), yet resolution fails,
because the code lowercases only the user input and then matches the
registered names verbatim. -/
theorem c1_counterexample :
    dlookup [("Python", 7)] "Python" = some 7
    ∧ make_shell [("Python", 7)] "Python" [] 0
        = .error "could not find a shell named \"python\"" := by
  constructor
  · decide
  · decide

/-- C1 (amended): with an explicit non-empty user-supplied name `N`, the
resolver lowercases `N` and looks that string up verbatim among the
registered names: it returns the factory registered under `pyLower N` when
that exact key is present (regardless of the preference list), and
otherwise raises the could-not-find `ValueError`; in `run` the error is
caught, the command returns exit code 1, and no shell factory is ever
invoked. -/
theorem c1_amended_explicit_shell_lookup :
    ∀ (shells : List (String × Nat)) (P : List String) (N : String) (d : Nat),
      (pyLower N == "") = false →
      (∀ f, dlookup shells (pyLower N) = some f → make_shell shells N P d = .ok f)
      ∧ (dlookup shells (pyLower N) = none →
          make_shell shells N P d
            = .error ("could not find a shell named \"" ++ pyLower N ++ "\""))
      ∧ (dlookup shells (pyLower N) = none →
          ∀ res callOf fs execFn shellFns args_setup pystartup (st : St) env,
            st.preferred_shells = P →
            (run res callOf fs execFn shellFns shells d N args_setup pystartup st env).shellCalls = 0
            ∧ (run res callOf fs execFn shellFns shells d N args_setup pystartup st env).result
                = .ok (some 1)) := by
  intro shells P N d hne
  refine ⟨fun f hf => make_shell_user_found shells N P d f hne hf, ?_, ?_⟩
  · intro hf
    exact make_shell_user_missing shells N P d hne hf
  · intro hf res callOf fs execFn shellFns args_setup pystartup st env hP
    have hmk : make_shell shells N st.preferred_shells d
        = .error ("could not find a shell named \"" ++ pyLower N ++ "\"") := by
      rw [hP]
      exact make_shell_user_missing shells N P d hne hf
    constructor
    · simp only [run, hmk]
    · simp only [run, hmk]

/-- C1 witness: a present name (case-insensitively supplied) resolves to its
factory; an absent name raises the could-not-find error. -/
theorem c1_witness :
    make_shell [("ipython", 7)] "IPython" ["x"] 0 = .ok 7
    ∧ make_shell [("ipython", 7)] "bpython" [] 0
        = .error ("could not find a shell named \"" ++ pyLower "bpython" ++ "\"") := by
  constructor
  · exact (c1_amended_explicit_shell_lookup [("ipython", 7)] ["x"] "IPython" 0 (by decide)).1
      7 (by decide)
  · exact (c1_amended_explicit_shell_lookup [("ipython", 7)] [] "bpython" 0 (by decide)).2.1
      (by decide)

/-- C2: on every exit path of a run that reached bootstrap — normal shell
exit, the shell raising, the setup hook (or its resolution) raising, or
shell resolution failing — the `finally` block of `run` invokes the
bootstrap closer exactly once. -/
theorem c2_closer_called_exactly_once :
    ∀ res callOf fs execFn shellFns shells d args_shell args_setup pystartup (st : St) env,
      (run res callOf fs execFn shellFns shells d args_shell args_setup pystartup st env).closerCalls
        = 1 := by
  intro res callOf fs execFn shellFns shells d args_shell args_setup pystartup st env
  rfl

/-- C3: with no explicit shell name and an empty configured preference list,
the synthesized preference list is exactly the discovered names without
`"python"`, in discovery order; over `S = {a, b, python}` (in every
discovery order) the chosen shell is the first of `a`, `b` in discovery
order and never `python`; when only `"python"` is discovered it is
chosen. -/
theorem c3_default_preference_excludes_python :
    (∀ shells : List (String × Nat),
      synthPreferred shells [] = (dkeys shells).filter (fun k => !(k == "python")))
    ∧ make_shell [("a", 10), ("b", 20), ("python", 30)] "" [] 99 = .ok 10
    ∧ make_shell [("a", 10), ("python", 30), ("b", 20)] "" [] 99 = .ok 10
    ∧ make_shell [("b", 20), ("a", 10), ("python", 30)] "" [] 99 = .ok 20
    ∧ make_shell [("b", 20), ("python", 30), ("a", 10)] "" [] 99 = .ok 20
    ∧ make_shell [("python", 30), ("a", 10), ("b", 20)] "" [] 99 = .ok 10
    ∧ make_shell [("python", 30), ("b", 20), ("a", 10)] "" [] 99 = .ok 20
    ∧ make_shell [("python", 30)] "" [] 99 = .ok 30 :=
  ⟨fun _ => rfl, by decide, by decide, by decide, by decide, by decide, by decide, by decide⟩

/-- C4: with no explicit name, the resolved shell is the leftmost discovered
shell minimizing the specified rank — its position in the (synthesized or
configured) preference list, with names absent from the list tied at rank
`length`, ties broken by discovery order; in particular with
`P = [ipython, bpython]` and `S = {python, ipython, bpython}` the resolved
shell is `ipython`. -/
theorem c4_preference_ranking :
    (∀ (shells : List (String × Nat)) (P : List String) (d : Nat),
      shells ≠ [] →
      ∃ x, leftmostMinBy
            (fun a b => decide (specRank (synthPreferred shells P) a
              ≤ specRank (synthPreferred shells P) b)) shells = some x
        ∧ x ∈ shells
        ∧ make_shell shells "" P d = .ok x.2)
    ∧ make_shell [("python", 0), ("ipython", 1), ("bpython", 2)] "" ["ipython", "bpython"] 99
        = .ok 1 := by
  constructor
  · intro shells P d hne
    obtain ⟨x, hx⟩ := leftmostMinBy_isSome
      (fun a b => decide (specRank (synthPreferred shells P) a
        ≤ specRank (synthPreferred shells P) b)) shells hne
    refine ⟨x, hx, leftmostMinBy_mem _ _ _ hx, ?_⟩
    rw [make_shell_no_user]
    have hcongr :
        (fun a b => decide (shellOrderKey (synthPreferred shells P) (synthPreferred shells P).length a
          ≤ shellOrderKey (synthPreferred shells P) (synthPreferred shells P).length b))
        = (fun a b => decide (specRank (synthPreferred shells P) a
          ≤ specRank (synthPreferred shells P) b)) := by
      funext a b
      exact decide_eq_decide.mpr (shellOrderKey_le_iff (synthPreferred shells P) a b)
    rw [head?_isortBy, hcongr, hx]
  · decide

/-- C4 witness: the general ranking theorem applied to the concrete example
resolves `ipython`. -/
theorem c4_witness :
    make_shell [("python", 0), ("ipython", 1), ("bpython", 2)] "" ["ipython", "bpython"] 99
      = .ok 1 := by
  obtain ⟨x, hx, _hmem, hmk⟩ := c4_preference_ranking.1
    [("python", 0), ("ipython", 1), ("bpython", 2)] ["ipython", "bpython"] 99 (by decide)
  have hval : x = ("ipython", 1) := by
    have : leftmostMinBy
        (fun a b => decide (specRank (synthPreferred [("python", 0), ("ipython", 1), ("bpython", 2)] ["ipython", "bpython"]) a
          ≤ specRank (synthPreferred [("python", 0), ("ipython", 1), ("bpython", 2)] ["ipython", "bpython"]) b))
        [("python", 0), ("ipython", 1), ("bpython", 2)] = some ("ipython", 1) := by decide
    rw [this] at hx
    exact (Option.some.injEq _ _ ▸ hx).symm
  rw [hval] at hmk
  exact hmk

set_option maxRecDepth 10000

/-- The Environment-section key listing of a successful `setup_env` result
(the sorted keys of `env_help`); empty for an error. -/
def envKeysOf (x : Except PyErr SetupResult) : List String :=
  match x with
  | .ok r => isortBy strLe (dkeys r.env_help)
  | .error _ => []

/-- The help-entry dict of a successful `setup_env` result. -/
def envHelpOf (x : Except PyErr SetupResult) : HelpMap :=
  match x with
  | .ok r => r.env_help
  | .error _ => []

/-- C5 counterexample: for a bootstrap environment with exactly the keys
`app` and `root`, no custom objects and no hook, the Environment section
does not list exactly the two entries `app` and `root`: the seeding step
adds help entries for all five well-known names whether or not the
environment contains them. -/
theorem c5_counterexample :
    envKeysOf (setup_env failRes idCall noFs noExec ⟨[], [], [], none⟩ none none
        [("app", ⟨1, none, "appX"⟩), ("root", ⟨2, none, "rootY"⟩)])
      ≠ ["app", "root"] := by decide

/-- C5 (amended): for a bootstrap environment with exactly the keys `app`
and `root`, no custom objects and no hook, the rendered Environment
section lists exactly the five seeded entries `app`, `registry`,
`request`, `root`, `root_factory`, alphabetically ordered, each with its
fixed seeded description — `app` and `root` among them. -/
theorem c5_amended_five_seeded_entries :
    ∀ X Y : Obj,
      setup_env failRes idCall noFs noExec ⟨[], [], [], none⟩ none none
          [("app", X), ("root", Y)]
        = .ok { env := [("app", X), ("root", Y)]
                env_help := [("app", .descr "The WSGI application."),
                             ("root", .descr "Root of the default resource tree."),
                             ("registry", .descr "Active Pyramid registry."),
                             ("request", .descr "Active request object."),
                             ("root_factory", .descr "Default root factory used to create `root`.")]
                help := "Environment:\n  app          The WSGI application.\n  registry     Active Pyramid registry.\n  request      Active request object.\n  root         Root of the default resource tree.\n  root_factory Default root factory used to create `root`." } := by
  intro X Y
  have hnd : (dkeys ([("app", X), ("root", Y)] : Env)).Nodup := by
    change (["app", "root"] : List String).Nodup
    decide
  have h1 : seededHelp [("app", X), ("root", Y)]
      = [("app", .descr "The WSGI application."),
         ("root", .descr "Root of the default resource tree."),
         ("registry", .descr "Active Pyramid registry."),
         ("request", .descr "Active request object."),
         ("root_factory", .descr "Default root factory used to create `root`.")] := rfl
  have h2 : renderHelp
      [("app", HelpVal.descr "The WSGI application."),
       ("root", .descr "Root of the default resource tree."),
       ("registry", .descr "Active Pyramid registry."),
       ("request", .descr "Active request object."),
       ("root_factory", .descr "Default root factory used to create `root`.")] []
      = "Environment:\n  app          The WSGI application.\n  registry     Active Pyramid registry.\n  request      Active request object.\n  root         Root of the default resource tree.\n  root_factory Default root factory used to create `root`." := by
    decide
  calc setup_env failRes idCall noFs noExec ⟨[], [], [], none⟩ none none [("app", X), ("root", Y)]
      = .ok { env := [("app", X), ("root", Y)]
              env_help := applyHookDiff [("app", X), ("root", Y)] [("app", X), ("root", Y)]
                (seededHelp [("app", X), ("root", Y)])
              help := renderHelp
                (applyHookDiff [("app", X), ("root", Y)] [("app", X), ("root", Y)]
                  (seededHelp [("app", X), ("root", Y)])) [] } := rfl
    _ = _ := by
        rw [applyHookDiff_self _ _ hnd, h1, h2]

/-- C6: every custom object key (which always has a matching `object_help`
entry) is deleted from the seeded help by the overlay step, so with no
setup hook it is absent from the final help entries and from the
Environment-section key listing, while it does appear in the
Custom-Variables key listing (rendered with its original configuration
string). -/
theorem c6_custom_overlay_removes_seeded (res : String → Except PyErr Obj)
    (callOf : Obj → Env → Except PyErr Env) (fs : String → Option String)
    (execFn : String → Env → Env) (st : St) (pystartup : Option String)
    (env : Env) (k : String) :
    effectiveSetup none st = none →
    (dkeys env).Nodup →
    k ∈ dkeys st.loaded_objects →
    k ∈ dkeys st.object_help →
    ∃ r, setup_env res callOf fs execFn st none pystartup env = .ok r
      ∧ dlookup r.env_help k = none
      ∧ k ∉ isortBy strLe (dkeys r.env_help)
      ∧ k ∈ isortBy strLe (dkeys st.object_help) := by
  intro hset hnd hkL hkO
  have henv1 : (dkeys (dupdateMany env st.loaded_objects)).Nodup :=
    dkeys_dupdateMany_nodup _ _ hnd
  have hmain := setup_env_no_hook res callOf fs execFn st none pystartup env hset
  rw [applyHookDiff_self _ _ henv1] at hmain
  refine ⟨_, hmain, ?_, ?_, ?_⟩
  · exact dlookup_eq_none_of_not_mem_dkeys _ k
      (not_mem_dkeys_overlayHelp st.loaded_objects (seededHelp env) k hkL)
  · intro hm
    exact not_mem_dkeys_overlayHelp st.loaded_objects (seededHelp env) k hkL
      ((mem_isortBy _ _ _).mp hm)
  · exact (mem_isortBy _ _ _).mpr hkO

/-- C6 witness: a custom object named `root` removes the seeded `root` help
entry, and `root` is listed in the Custom-Variables section keys. -/
theorem c6_witness :
    dlookup (envHelpOf (setup_env failRes idCall noFs noExec
        ⟨[("root", ⟨9, none, "customRoot"⟩)], [("root", "myapp.resources.root")], [], none⟩
        none none [("app", ⟨1, none, "A"⟩), ("root", ⟨2, none, "R"⟩)])) "root" = none
    ∧ "root" ∈ isortBy strLe (dkeys ([("root", "myapp.resources.root")] : List (String × String))) := by
  obtain ⟨r, hr, h1, _h2, h3⟩ := c6_custom_overlay_removes_seeded failRes idCall noFs noExec
    ⟨[("root", ⟨9, none, "customRoot"⟩)], [("root", "myapp.resources.root")], [], none⟩
    none [("app", ⟨1, none, "A"⟩), ("root", ⟨2, none, "R"⟩)] "root"
    rfl (by decide) (by decide) (by decide)
  constructor
  · rw [hr] at *
    exact h1
  · exact h3

/-- C7: when the effective setup value resolves to a hook object whose call
turns the post-overlay environment `dupdateMany env st.loaded_objects`
into `envPost`, the final help entries are exactly the pre-hook entries
(seeded plus custom overlay) updated by the diff step: every key of
`envPost` that is new, or bound to an object whose identity differs from
the pre-hook binding, gets its entry replaced by `docLine` — the object
docstring with newlines collapsed when a non-empty docstring exists,
otherwise the object itself — while keys with identical bindings keep
their prior entries. -/
theorem c7_hook_diff_recomputes_help (res : String → Except PyErr Obj)
    (callOf : Obj → Env → Except PyErr Env) (fs : String → Option String)
    (execFn : String → Env → Env) (st : St) (args_setup pystartup : Option String)
    (env envPost : Env) (s : String) (o : Obj) (k : String) (v : Obj) :
    effectiveSetup args_setup st = some s →
    s ≠ "" →
    res s = .ok o →
    callOf o (dupdateMany env st.loaded_objects) = .ok envPost →
    (dkeys envPost).Nodup →
    (k, v) ∈ envPost →
    ∃ r, setup_env res callOf fs execFn st args_setup pystartup env = .ok r
      ∧ r.env_help = applyHookDiff envPost (dupdateMany env st.loaded_objects)
          (overlayHelp (seededHelp env) st.loaded_objects)
      ∧ (changedSince (dupdateMany env st.loaded_objects) (k, v) = true →
          dlookup r.env_help k = some (docLine v))
      ∧ (changedSince (dupdateMany env st.loaded_objects) (k, v) = false →
          dlookup r.env_help k
            = dlookup (overlayHelp (seededHelp env) st.loaded_objects) k) := by
  intro h1 h2 h3 h4 hnd hmem
  have hmain := setup_env_hook res callOf fs execFn st args_setup pystartup env envPost s o
    h1 h2 h3 h4
  refine ⟨_, hmain, rfl, ?_, ?_⟩
  · intro hch
    rw [dlookup_applyHookDiff _ _ _ envPost _ hnd hmem, if_pos hch]
  · intro hch
    rw [dlookup_applyHookDiff _ _ _ envPost _ hnd hmem, if_neg (by simp [hch])]

/-- Concrete hook resolver for the C7 witness. -/
def resHook : String → Except PyErr Obj :=
  fun s => if s == "m.hook" then .ok ⟨5, none, "H"⟩ else .error (.importError s)

/-- Concrete hook behaviour for the C7 witness: adds a documented binding
`b` to the environment. -/
def callHook : Obj → Env → Except PyErr Env :=
  fun o e => if o.id == 5 then .ok (e ++ [("b", ⟨7, some "B doc", "B"⟩)]) else .ok e

/-- C7 witness: the hook adds a new key `b` bound to a documented object, so
the final help entry for `b` is its docstring. -/
theorem c7_witness :
    dlookup (envHelpOf (setup_env resHook callHook noFs noExec
        ⟨[], [], [], some "m.hook"⟩ none none [("a", ⟨1, none, "A"⟩)])) "b"
      = some (.descr "B doc") := by
  obtain ⟨r, hr, _heq, hch, _⟩ := c7_hook_diff_recomputes_help resHook callHook noFs noExec
    ⟨[], [], [], some "m.hook"⟩ none none
    [("a", ⟨1, none, "A"⟩)] [("a", ⟨1, none, "A"⟩), ("b", ⟨7, some "B doc", "B"⟩)]
    "m.hook" ⟨5, none, "H"⟩ "b" ⟨7, some "B doc", "B"⟩
    rfl (by decide) rfl rfl (by decide) (by decide)
  rw [hr] at *
  exact hch (by decide)

/-- C8 counterexample: with a configured setup dotted path that fails to
resolve, the run does not end in a reported non-zero exit code: the
resolution exception propagates out of `run` unhandled (only the
`ValueError` from shell resolution is caught and converted to exit
code 1). -/
theorem c8_counterexample :
    ¬ ∃ n : Nat,
      (run failRes idCall noFs noExec okShell [("python", 0)] 99 "" none none
        ⟨[], [], [], some "does.not.exist"⟩ []).result = Except.ok (some n) := by
  rintro ⟨n, h⟩
  rw [show (run failRes idCall noFs noExec okShell [("python", 0)] 99 "" none none
      ⟨[], [], [], some "does.not.exist"⟩ []).result
      = Except.error (.importError "does.not.exist") from rfl] at h
  exact Except.noConfusion h

/-- C8 (amended): when shell resolution succeeds and the effective setup
value is a non-empty string the resolver rejects, the run fails before any
shell factory is invoked, the resolution exception propagates unhandled
(it is not converted to a one-line message with a non-zero exit code), and
the closer still runs exactly once. -/
theorem c8_amended_unresolvable_setup_propagates :
    ∀ res callOf fs execFn shellFns shells (d : Nat) args_shell args_setup pystartup
      (st : St) env (sid : Nat) (s : String) (e : PyErr),
      make_shell shells args_shell st.preferred_shells d = .ok sid →
      effectiveSetup args_setup st = some s →
      s ≠ "" →
      res s = .error e →
      run res callOf fs execFn shellFns shells d args_shell args_setup pystartup st env
        = { result := .error e, closerCalls := 1, shellCalls := 0 } := by
  intro res callOf fs execFn shellFns shells d args_shell args_setup pystartup st env sid s e
    hmk heff hs hres
  have hsb : (s == "") = false := beq_eq_false_iff_ne.mpr hs
  have hsetup : setup_env res callOf fs execFn st args_setup pystartup env = .error e := by
    unfold setup_env
    rw [heff, resolveSetup_some, hsb, hres]
    simp only [Bool.false_eq_true, if_false]
  simp only [run, hmk, hsetup]

/-- C8 witness: concrete unresolvable setup path `nope.nope`. -/
theorem c8_witness :
    run failRes idCall noFs noExec okShell [("python", 5)] 9 "" none none
        ⟨[], [], [], some "nope.nope"⟩ []
      = { result := .error (.importError "nope.nope"), closerCalls := 1, shellCalls := 0 } :=
  c8_amended_unresolvable_setup_propagates failRes idCall noFs noExec okShell [("python", 5)]
    9 "" none none ⟨[], [], [], some "nope.nope"⟩ [] 5 "nope.nope"
    (.importError "nope.nope") (by decide) rfl (by decide) rfl

/-- C9: (1) when the configured startup-file path does not name an existing
file, `setup_env` produces exactly the result it produces with no startup
file configured (same environment, same help, no error); (2) when the file
exists, the final environment is the exec-transformed environment with any
`__builtins__` binding removed (and help entries and help text are those
computed before the exec). -/
theorem c9_startup_file (res : String → Except PyErr Obj)
    (callOf : Obj → Env → Except PyErr Env) (fs : String → Option String)
    (execFn : String → Env → Env) (st : St) (args_setup : Option String)
    (env : Env) (q : String) :
    (fs q = none →
      setup_env res callOf fs execFn st args_setup (some q) env
        = setup_env res callOf fs execFn st args_setup none env)
    ∧ (∀ c r, fs q = some c → q ≠ "" →
        setup_env res callOf fs execFn st args_setup none env = .ok r →
        setup_env res callOf fs execFn st args_setup (some q) env
          = .ok { r with env := derase (execFn c r.env) "__builtins__" }
        ∧ "__builtins__" ∉ dkeys (derase (execFn c r.env) "__builtins__")) := by
  constructor
  · intro hfs
    rw [setup_env_startup_decomposition res callOf fs execFn st args_setup env (some q)]
    have happ : ∀ e : Env, applyPystartup fs execFn (some q) e = e := by
      intro e
      unfold applyPystartup
      simp only []
      by_cases hq : (q == "") = true
      · rw [if_pos hq]
      · rw [if_neg hq, hfs]
    cases setup_env res callOf fs execFn st args_setup none env with
    | error e => rfl
    | ok r =>
      simp only [Except.map, happ]
  · intro c r hfs hq hbase
    have hqb : (q == "") = false := beq_eq_false_iff_ne.mpr hq
    constructor
    · rw [setup_env_startup_decomposition res callOf fs execFn st args_setup env (some q), hbase]
      simp only [Except.map, applyPystartup, hqb, Bool.false_eq_true, if_false, hfs]
    · exact not_mem_dkeys_derase _ _

/-- Filesystem for the C9 witness: only `startup.py` exists. -/
def fsOne : String → Option String :=
  fun s => if s == "startup.py" then some "code" else none

/-- Exec effect for the C9 witness: binds `x` and injects `__builtins__`. -/
def exOne : String → Env → Env :=
  fun _ e => dinsert (dinsert e "x" ⟨51, none, "X"⟩) "__builtins__" ⟨50, none, "bi"⟩

/-- C9 witness: a missing startup file changes nothing; an existing one is
executed into the environment and `__builtins__` is stripped afterwards,
with help text unaffected. -/
theorem c9_witness :
    (setup_env failRes idCall noFs noExec ⟨[], [], [], none⟩ none (some "startup.py") []
      = setup_env failRes idCall noFs noExec ⟨[], [], [], none⟩ none none [])
    ∧ setup_env failRes idCall fsOne exOne ⟨[], [], [], none⟩ none (some "startup.py") []
        = .ok { env := [("x", ⟨51, none, "X"⟩)]
                env_help := seededHelp []
                help := renderHelp (seededHelp []) [] }
    ∧ "__builtins__" ∉ dkeys (derase (exOne "code" ([] : Env)) "__builtins__") := by
  refine ⟨?_, ?_, ?_⟩
  · exact (c9_startup_file failRes idCall noFs noExec ⟨[], [], [], none⟩ none [] "startup.py").1
      rfl
  · have h := (c9_startup_file failRes idCall fsOne exOne ⟨[], [], [], none⟩ none [] "startup.py").2
      "code" ⟨[], seededHelp [], renderHelp (seededHelp []) []⟩ rfl (by decide) rfl
    exact h.1
  · have h := (c9_startup_file failRes idCall fsOne exOne ⟨[], [], [], none⟩ none [] "startup.py").2
      "code" ⟨[], seededHelp [], renderHelp (seededHelp []) []⟩ rfl (by decide) rfl
    exact h.2

/-- One settings item leaves `preferred_shells` unchanged unless its key is
`default_shell`. -/
theorem applySetting_preserves_preferred (res : String → Except PyErr Obj) (st : St)
    (kv : String × String) (st2 : St) (hk : kv.1 ≠ "default_shell")
    (h : applySetting res st kv = .ok st2) :
    st2.preferred_shells = st.preferred_shells := by
  unfold applySetting at h
  by_cases h1 : (kv.1 == "setup") = true
  · rw [if_pos h1] at h
    cases h
    rfl
  · rw [if_neg h1] at h
    rw [show (kv.1 == "default_shell") = false from beq_eq_false_iff_ne.mpr hk] at h
    simp only [Bool.false_eq_true, if_false] at h
    cases hres : res kv.2 with
    | error e => rw [hres] at h; cases h
    | ok o =>
      rw [hres] at h
      cases h
      rfl

/-- The settings loop leaves `preferred_shells` unchanged when no
`default_shell` key occurs. -/
theorem applySettings_preserves_preferred (res : String → Except PyErr Obj)
    (settings : List (String × String)) :
    ∀ st st1 : St, (∀ kv ∈ settings, kv.1 ≠ "default_shell") →
      applySettings res st settings = .ok st1 →
      st1.preferred_shells = st.preferred_shells := by
  induction settings with
  | nil =>
    intro st st1 _ h
    cases h
    rfl
  | cons kv rest ih =>
    intro st st1 hnd h
    unfold applySettings at h
    cases hstep : applySetting res st kv with
    | error e =>
      rw [hstep] at h
      cases h
    | ok stm =>
      rw [hstep] at h
      simp only [] at h
      have hmid := ih stm st1 (fun p hp => hnd p (List.mem_cons_of_mem _ hp)) h
      rw [hmid]
      exact applySetting_preserves_preferred res st kv stm (hnd kv (List.mem_cons_self _ _)) hstep

/-- C10: every `pshell_file_config` call resets `loaded_objects`,
`object_help` and `setup` (on empty settings it resets them outright, and
in general the result does not depend on their prior values), leaves
`preferred_shells` unchanged whenever the settings contain no
`default_shell` key, and hence a preference list established by one call
persists through a later call whose settings omit `default_shell`. -/
theorem c10_file_config_frame (res : String → Except PyErr Obj) (st st2 : St)
    (settings s1 s2 : List (String × String)) :
    pshell_file_config res st []
        = .ok { st with loaded_objects := [], object_help := [], setup := none }
    ∧ (st.preferred_shells = st2.preferred_shells →
        pshell_file_config res st settings = pshell_file_config res st2 settings)
    ∧ ((∀ kv ∈ settings, kv.1 ≠ "default_shell") →
        ∀ st1, pshell_file_config res st settings = .ok st1 →
          st1.preferred_shells = st.preferred_shells)
    ∧ (∀ stA stB, pshell_file_config res st s1 = .ok stA →
        (∀ kv ∈ s2, kv.1 ≠ "default_shell") →
        pshell_file_config res stA s2 = .ok stB →
        stB.preferred_shells = stA.preferred_shells) := by
  refine ⟨rfl, ?_, ?_, ?_⟩
  · intro hpref
    unfold pshell_file_config
    have heq : ({ st with loaded_objects := [], object_help := [], setup := none } : St)
        = { st2 with loaded_objects := [], object_help := [], setup := none } := by
      cases st
      cases st2
      simpa using hpref
    rw [heq]
  · intro hnd st1 h
    exact applySettings_preserves_preferred res settings
      { st with loaded_objects := [], object_help := [], setup := none } st1 hnd h
  · intro stA stB _h1 hnd h2
    exact applySettings_preserves_preferred res s2
      { stA with loaded_objects := [], object_help := [], setup := none } stB hnd h2

/-- C10 witness: concrete resets, irrelevance of prior state, and
persistence of a configured preference list across a later call without
`default_shell`. -/
theorem c10_witness :
    pshell_file_config failRes ⟨[("a", ⟨1, none, "A"⟩)], [("a", "m.a")], ["x"], some "s0"⟩ []
        = .ok ⟨[], [], ["x"], none⟩
    ∧ pshell_file_config failRes ⟨[("a", ⟨1, none, "A"⟩)], [("a", "m.a")], ["x"], some "s0"⟩
          [("setup", "m.s")]
        = pshell_file_config failRes ⟨[], [], ["x"], none⟩ [("setup", "m.s")]
    ∧ (⟨[], [], ["x"], some "m.s"⟩ : St).preferred_shells
        = (⟨[("a", ⟨1, none, "A"⟩)], [("a", "m.a")], ["x"], some "s0"⟩ : St).preferred_shells
    ∧ (⟨[], [], ["ipython"], some "m.s"⟩ : St).preferred_shells
        = (⟨[], [], ["ipython"], none⟩ : St).preferred_shells := by
  have H := c10_file_config_frame failRes
    ⟨[("a", ⟨1, none, "A"⟩)], [("a", "m.a")], ["x"], some "s0"⟩ ⟨[], [], ["x"], none⟩
    [("setup", "m.s")] [("default_shell", "IPython")] [("setup", "m.s")]
  refine ⟨H.1, H.2.1 rfl, ?_, ?_⟩
  · exact H.2.2.1 (by decide) ⟨[], [], ["x"], some "m.s"⟩ rfl
  · exact H.2.2.2 ⟨[], [], ["ipython"], none⟩ ⟨[], [], ["ipython"], some "m.s"⟩ rfl
      (by decide) rfl
